import Mathlib

/-!
Verification of the dawn-alarm widget (src/src/App.tsx).

The development is a shallow embedding of the alarm logic of `App.tsx`:

* Wall-clock instants are natural numbers counting milliseconds; the local
  calendar fields (`getHours`, `getMinutes`, `getSeconds`) are derived by the
  usual divisions, identifying local time with the epoch offset (the program
  uses a single local clock throughout, so claims are timezone independent).
* The React state triple `alarm` / `isRinging` / audio refs becomes the
  structure `AppState`; the per-second alarm-check effect (lines 98-119)
  becomes the pure step function `checkAlarm`, which also returns whether an
  exception escaped the effect (the audio subsystem model: `audioOk = false`
  makes `startAlarmSound` fail the way `new AudioContext()` throws when the
  API is unavailable).
* The `useEffect` ordering is respected: state updates enqueued before a
  throwing call survive the throw, which is why `checkAlarm` returns the
  partially-updated state together with the escaped-exception flag.
* `localStorage` persistence becomes `loadAlarm` / `saveAlarm` over a model
  of `JSON.parse` / `JSON.stringify` (later in this file).  JavaScript
  truthiness tests on `snoozeUntil` (`if (alarm.snoozed && alarm.snoozeUntil)`)
  are modelled by `jsTruthyOpt`, which is false for `null` and for `0`.
-/

/-! ## Clock arithmetic (Date.getHours / getMinutes / getSeconds) -/

def msPerSecond : Nat := 1000

def msPerMinute : Nat := 60000

def msPerHour : Nat := 3600000

def msPerDay : Nat := 86400000

def hoursOf (now : Nat) : Nat := now % msPerDay / msPerHour

def minutesOf (now : Nat) : Nat := now % msPerHour / msPerMinute

def secondsOf (now : Nat) : Nat := now % msPerMinute / msPerSecond

/-- Model of `String(n).padStart(2, '0')`. -/
def pad2 (n : Nat) : String :=
  let s := toString n
  if s.length < 2 then "0" ++ s else s

/-- The current-time string of App.tsx line 102:
`${String(now.getHours()).padStart(2,'0')}:${String(now.getMinutes()).padStart(2,'0')}`. -/
def hhmm (now : Nat) : String := pad2 (hoursOf now) ++ ":" ++ pad2 (minutesOf now)

/-! ## The state of the App component -/

/-- The `AlarmState` interface of App.tsx lines 3-8.  `snoozeUntil` is an
epoch-milliseconds timestamp or `null`. -/
structure AlarmState where
  time : String
  enabled : Bool
  snoozed : Bool
  snoozeUntil : Option Nat
deriving DecidableEq

/-- The full component state: the `alarm` state, the `isRinging` flag, and
whether an audio context is currently live (`audioContextRef.current !== null`;
the oscillator and gain refs live and die with it). -/
structure AppState where
  alarm : AlarmState
  isRinging : Bool
  audioActive : Bool
deriving DecidableEq

/-- JavaScript truthiness of a nullable number, as used in
`alarm.snoozed && alarm.snoozeUntil`: `null` and `0` are falsy. -/
def jsTruthyOpt : Option Nat → Bool
  | none => false
  | some n => n != 0

/-- `SNOOZE_DURATION = 5 * 60 * 1000` (App.tsx line 11). -/
def SNOOZE_DURATION : Nat := 5 * 60 * 1000

/-! ## Alert sound controller -/

/-- Model of `startAlarmSound` (lines 42-83).  If an audio context is already
live it returns immediately (line 43).  Otherwise it constructs the audio
graph; when the Web Audio API is unavailable (`audioOk = false`) the
`new AudioContext()` call throws, modelled by `Except.error`.  On success the
context is live. -/
def startAlarmSound (audioOk : Bool) (active : Bool) : Except Unit Bool :=
  if active then .ok active
  else if audioOk then .ok true
  else .error ()

/-- Model of `stopAlarmSound` (lines 85-95): stops the oscillator, closes the
context and clears all refs, so no audio resources remain live. -/
def stopAlarmSound (_active : Bool) : Bool := false

/-! ## Tick evaluation: the alarm-check effect (lines 98-119) -/

/-- One evaluation of the alarm-check effect.  `now` models the `currentTime`
state sampled by the 1 Hz interval and `dateNow` the `Date.now()` call on
line 106; both are epoch milliseconds.  Returns the state after the effect
together with a flag recording whether an exception escaped the effect body
(which happens exactly when `startAlarmSound` throws; the `setAlarm` /
`setIsRinging` updates enqueued before the call still take effect). -/
def checkAlarm (audioOk : Bool) (s : AppState) (now dateNow : Nat) : AppState × Bool :=
  if !s.alarm.enabled || s.isRinging then (s, false)
  else
    let currentTimeStr := hhmm now
    if s.alarm.snoozed && jsTruthyOpt s.alarm.snoozeUntil then
      match s.alarm.snoozeUntil with
      | some u =>
        if u ≤ dateNow then
          let s1 : AppState :=
            { s with alarm := { s.alarm with snoozed := false, snoozeUntil := none },
                     isRinging := true }
          match startAlarmSound audioOk s1.audioActive with
          | .ok a => ({ s1 with audioActive := a }, false)
          | .error _ => (s1, true)
        else (s, false)
      | none => (s, false)
    else
      if currentTimeStr == s.alarm.time && secondsOf now == 0 && !s.alarm.snoozed then
        let s1 : AppState := { s with isRinging := true }
        match startAlarmSound audioOk s1.audioActive with
        | .ok a => ({ s1 with audioActive := a }, false)
        | .error _ => (s1, true)
      else (s, false)

/-- `handleDismiss` (lines 121-125): clear ringing, stop the sound, disable
the alarm and clear the snooze fields. -/
def handleDismiss (s : AppState) : AppState :=
  { alarm := { s.alarm with enabled := false, snoozed := false, snoozeUntil := none },
    isRinging := false,
    audioActive := stopAlarmSound s.audioActive }

/-- `handleSnooze` (lines 127-135): clear ringing, stop the sound, and set
`snoozeUntil = Date.now() + SNOOZE_DURATION`. -/
def handleSnooze (s : AppState) (dateNow : Nat) : AppState :=
  { alarm := { s.alarm with snoozed := true, snoozeUntil := some (dateNow + SNOOZE_DURATION) },
    isRinging := false,
    audioActive := stopAlarmSound s.audioActive }

/-- `toggleAlarm` (lines 137-144): flip `enabled`, clearing the snooze fields. -/
def toggleAlarm (s : AppState) : AppState :=
  { s with
    alarm :=
      { s.alarm with enabled := !s.alarm.enabled, snoozed := false, snoozeUntil := none } }

/-- Number of ticks, along a run of the alarm-check effect over the listed
`(now, dateNow)` instants with no user action in between, at which the
machine enters the ringing state. -/
def countFires (audioOk : Bool) : AppState → List (Nat × Nat) → Nat
  | _, [] => 0
  | s, (now, dateNow) :: rest =>
    let s2 := (checkAlarm audioOk s now dateNow).1
    (if !s.isRinging && s2.isRinging then 1 else 0) + countFires audioOk s2 rest

/-! ## Time-remaining query (`getTimeUntilAlarm`, lines 158-187) -/

/-- Model of `String.prototype.split` with a one-character separator:
`"a:b".split(':') = ["a", "b"]` and `"".split(':') = [""]`. -/
def splitChar (sep : Char) : List Char → List (List Char)
  | [] => [[]]
  | c :: rest =>
    if c == sep then [] :: splitChar sep rest
    else
      match splitChar sep rest with
      | g :: gs => (c :: g) :: gs
      | [] => [[c]]

/-- Left fold of decimal digits, `none` on the first non-digit. -/
def toNatDigitsAux : List Char → Nat → Option Nat
  | [], acc => some acc
  | c :: rest, acc =>
    if c.isDigit then toNatDigitsAux rest (acc * 10 + (c.toNat - 48)) else none

/-- Digits of a numeric string: `some n` when the (nonempty) string is all
decimal digits, `none` otherwise, folding left as `Number` does. -/
def toNatDigits? : List Char → Option Nat
  | [] => none
  | cs => toNatDigitsAux cs 0

/-- Model of `getTimeUntilAlarm`.  `now` is the `currentTime` sample used for
the alarm-date computation, `dateNow` the fresh `Date.now()` used for the
snooze difference.  `alarm.time.split(':').map(Number)` is modelled with
`splitChar` and `toNatDigits?` with default 0 (`Number` of a digit string;
other strings make the code produce `NaN` dates, which no reachable
configured time does and which the theorems below exclude by hypothesis). -/
def getTimeUntilAlarm (alarm : AlarmState) (now dateNow : Nat) : Option String :=
  if !alarm.enabled then none
  else
    let parts := (splitChar ':' alarm.time.data).map (fun p => (toNatDigits? p).getD 0)
    let alarmHours := parts.getD 0 0
    let alarmMinutes := parts.getD 1 0
    let dayStart := now - now % msPerDay
    let target := dayStart + (alarmHours * 60 + alarmMinutes) * msPerMinute
    let alarmDate := if target ≤ now then target + msPerDay else target
    let snoozeAnswer : Option String :=
      if alarm.snoozed && jsTruthyOpt alarm.snoozeUntil then
        match alarm.snoozeUntil with
        | some u =>
          if dateNow < u then
            some ("Snooze: " ++ toString ((u - dateNow + (msPerMinute - 1)) / msPerMinute) ++ "m")
          else none
        | none => none
      else none
    match snoozeAnswer with
    | some r => some r
    | none =>
      let diff := alarmDate - now
      let hours := diff / msPerHour
      let minutes := diff % msPerHour / msPerMinute
      if hours > 0 then some ("in " ++ toString hours ++ "h " ++ toString minutes ++ "m")
      else some ("in " ++ toString minutes ++ "m")

/-! ## A model of JSON values and of `JSON.parse` / `JSON.stringify`

The model covers the JSON fragment relevant to this program: `null`,
booleans, integer numbers, strings with the common escapes, and objects
(member lists, later binding winning on lookup as in JavaScript).  The
parser is fuelled so that every function is structurally recursive and
evaluates definitionally. -/

mutual
inductive Json where
  | null
  | bool (b : Bool)
  | num (n : Int)
  | str (s : String)
  | obj (fs : Fields)
deriving DecidableEq
inductive Fields where
  | nil
  | cons (k : String) (v : Json) (rest : Fields)
deriving DecidableEq
end

/-- Concatenation of member lists (later members override on lookup). -/
def Fields.append : Fields → Fields → Fields
  | .nil, gs => gs
  | .cons k v rest, gs => .cons k v (rest.append gs)

/-- Property lookup on a JavaScript object built from a member list: the
last binding of a key wins, as for duplicate keys in `JSON.parse` and for
later properties in object literals and spreads. -/
def getField : Fields → String → Option Json
  | .nil, _ => none
  | .cons k v rest, key =>
    match getField rest key with
    | some v2 => some v2
    | none => if k == key then some v else none

/-- The keys of a member list, in order. -/
def fieldKeys : Fields → List String
  | .nil => []
  | .cons k _ rest => k :: fieldKeys rest

/-- Resolution of a JSON string escape character. -/
def jsonUnescape (e : Char) : Option Char :=
  if e == '"' then some '"'
  else if e == '\\' then some '\\'
  else if e == '/' then some '/'
  else if e == 'n' then some '\n'
  else if e == 't' then some '\t'
  else if e == 'r' then some '\r'
  else none

/-- Scan of a JSON string literal body up to the closing quote, fuelled by
an upper bound on the number of scanned characters. -/
def parseStringBody : Nat → List Char → List Char → Option (String × List Char)
  | 0, _, _ => none
  | _ + 1, _, [] => none
  | fuel + 1, acc, c :: rest =>
    if c == '"' then some (String.mk acc.reverse, rest)
    else if c == '\\' then
      match rest with
      | [] => none
      | e :: rest2 =>
        match jsonUnescape e with
        | some d => parseStringBody fuel (d :: acc) rest2
        | none => none
    else parseStringBody fuel (c :: acc) rest

/-- Skip JSON whitespace. -/
def skipWs : List Char → List Char
  | [] => []
  | c :: cs => if c == ' ' || c == '\n' || c == '\t' || c == '\r' then skipWs cs else c :: cs

/-- Decimal digit scan. -/
def parseDigits (acc : Nat) : List Char → Nat × List Char
  | [] => (acc, [])
  | c :: cs => if c.isDigit then parseDigits (acc * 10 + (c.toNat - 48)) cs else (acc, c :: cs)

/-- Integer literal scan (sign already consumed). -/
def parseNumTail (neg : Bool) : List Char → Option (Int × List Char)
  | [] => none
  | c :: cs =>
    if c.isDigit then
      let (n, rest) := parseDigits (c.toNat - 48) cs
      some (if neg then -(n : Int) else (n : Int), rest)
    else none

mutual
/-- Parse one JSON value.  The fuel dominates both the nesting depth and
the length of any scanned string literal. -/
def parseValue : Nat → List Char → Option (Json × List Char)
  | 0, _ => none
  | fuel + 1, cs =>
    match skipWs cs with
    | [] => none
    | c :: rest =>
      if c == '"' then
        match parseStringBody fuel [] rest with
        | some (s, rest2) => some (.str s, rest2)
        | none => none
      else if c == '\x7b' then
        match skipWs rest with
        | '\x7d' :: rest2 => some (.obj .nil, rest2)
        | rest2 =>
          match parseMembers fuel rest2 with
          | some (fs, rest3) => some (.obj fs, rest3)
          | none => none
      else if c == 't' then
        match rest with
        | 'r' :: 'u' :: 'e' :: rest2 => some (.bool true, rest2)
        | _ => none
      else if c == 'f' then
        match rest with
        | 'a' :: 'l' :: 's' :: 'e' :: rest2 => some (.bool false, rest2)
        | _ => none
      else if c == 'n' then
        match rest with
        | 'u' :: 'l' :: 'l' :: rest2 => some (.null, rest2)
        | _ => none
      else if c == '-' then
        match parseNumTail true rest with
        | some (n, rest2) => some (.num n, rest2)
        | none => none
      else
        match parseNumTail false (c :: rest) with
        | some (n, rest2) => some (.num n, rest2)
        | none => none

/-- Parse a nonempty member list of a JSON object, including the closing
brace. -/
def parseMembers : Nat → List Char → Option (Fields × List Char)
  | 0, _ => none
  | fuel + 1, cs =>
    match skipWs cs with
    | '"' :: rest =>
      match parseStringBody fuel [] rest with
      | some (k, rest2) =>
        match skipWs rest2 with
        | ':' :: rest3 =>
          match parseValue fuel rest3 with
          | some (v, rest4) =>
            match skipWs rest4 with
            | ',' :: rest5 =>
              match parseMembers fuel rest5 with
              | some (fs, rest6) => some (.cons k v fs, rest6)
              | none => none
            | '\x7d' :: rest5 => some (.cons k v .nil, rest5)
            | _ => none
          | none => none
        | _ => none
      | none => none
    | _ => none
end

/-- Model of `JSON.parse`: parse one value and require only whitespace
after it; `none` models a thrown `SyntaxError`. -/
def jsonParse (s : String) : Option Json :=
  match parseValue (s.length + 1) s.data with
  | some (j, rest) => if (skipWs rest).isEmpty then some j else none
  | none => none

/-- JSON escaping of one character (the escapes this model covers). -/
def escapeJsonChars : List Char → List Char
  | [] => []
  | c :: cs =>
    if c == '"' then '\\' :: '"' :: escapeJsonChars cs
    else if c == '\\' then '\\' :: '\\' :: escapeJsonChars cs
    else if c == '\n' then '\\' :: 'n' :: escapeJsonChars cs
    else if c == '\t' then '\\' :: 't' :: escapeJsonChars cs
    else if c == '\r' then '\\' :: 'r' :: escapeJsonChars cs
    else c :: escapeJsonChars cs

/-- Model of `JSON.stringify` on a string: quote and escape. -/
def quoteJson (s : String) : String := String.mk ('"' :: (escapeJsonChars s.data ++ ['"']))

mutual
/-- Model of `JSON.stringify` (compact form, no indentation). -/
def jsonStringify : Json → String
  | .null => "null"
  | .bool true => "true"
  | .bool false => "false"
  | .num n => toString n
  | .str s => quoteJson s
  | .obj fs => "\x7b" ++ stringifyMembers fs ++ "\x7d"

/-- Serialize the members of an object, comma separated. -/
def stringifyMembers : Fields → String
  | .nil => ""
  | .cons k v .nil => quoteJson k ++ ":" ++ jsonStringify v
  | .cons k v (.cons k2 v2 rest) =>
      quoteJson k ++ ":" ++ jsonStringify v ++ "," ++ stringifyMembers (.cons k2 v2 rest)
end

/-! ## Persistence: the `useState` initializer (lines 15-22) and the save
effect (lines 29-31) -/

/-- The JavaScript spread `{ ...parsed }` of a parsed JSON value: objects
contribute their members, strings their indexed characters, and primitives
nothing. -/
def strSpreadFields (i : Nat) : List Char → Fields
  | [] => .nil
  | c :: cs => .cons (toString i) (.str (String.mk [c])) (strSpreadFields (i + 1) cs)

/-- Spread of a parsed value into an object literal. -/
def jsSpread : Json → Fields
  | .obj fs => fs
  | .str s => strSpreadFields 0 s.data
  | _ => .nil

/-- The trailing `snoozed: false, snoozeUntil: null` properties of the
object literal on line 19, which override any spread-in members. -/
def runtimeResetFields : Fields :=
  .cons "snoozed" (.bool false) (.cons "snoozeUntil" .null .nil)

/-- The default state object of line 21. -/
def defaultAlarmFields : Fields :=
  .cons "time" (.str "07:00")
    (.cons "enabled" (.bool false)
      (.cons "snoozed" (.bool false) (.cons "snoozeUntil" .null .nil)))

/-- Model of the `useState` initializer (lines 15-22).  `saved` is
`localStorage.getItem(STORAGE_KEY)`; a missing key and the falsy empty
string both select the default.  Otherwise the payload goes through
`JSON.parse` with no `try`/`catch`, so a parse failure is a thrown
`SyntaxError`, modelled by `Except.error`; on success the parsed value is
spread into a fresh object with the runtime fields reset. -/
def loadAlarm (saved : Option String) : Except String Fields :=
  match saved with
  | some s =>
    if s == "" then .ok defaultAlarmFields
    else
      match jsonParse s with
      | some j => .ok ((jsSpread j).append runtimeResetFields)
      | none => .error "SyntaxError"
  | none => .ok defaultAlarmFields

/-- The object literal `{ time: alarm.time, enabled: alarm.enabled }`
serialized by the save effect (line 30). -/
def savedObj (time : String) (enabled : Bool) : Fields :=
  .cons "time" (.str time) (.cons "enabled" (.bool enabled) .nil)

/-- Model of the save effect (lines 29-31) on a well-typed state. -/
def saveAlarm (time : String) (enabled : Bool) : String :=
  jsonStringify (.obj (savedObj time enabled))

/-- One member of the saved object when the state was produced by the
initializer: a field holding `undefined` (a missing property) is omitted by
`JSON.stringify`. -/
def saveLoadedMember (k : String) : Option Json → List String
  | some v => [quoteJson k ++ ":" ++ jsonStringify v]
  | none => []

/-- The persisted payload written by the save effect when the in-memory
state is the raw record produced by the initializer. -/
def saveLoadedRecord (r : Fields) : String :=
  "\x7b" ++ String.intercalate ","
      (saveLoadedMember "time" (getField r "time")
        ++ saveLoadedMember "enabled" (getField r "enabled"))
    ++ "\x7d"

/-- Load a payload and immediately save the loaded configuration. -/
def resave (saved : Option String) : Except String String :=
  (loadAlarm saved).map saveLoadedRecord

/-- The rolled alarm date of `getTimeUntilAlarm` (lines 164-169), extracted
for the statements below: the instant with time-of-day `h`:`m` on `now`'s
calendar day, pushed to the next day when it is not in the strict future. -/
def nextAlarmDate (h m now : Nat) : Nat :=
  let target := now - now % msPerDay + (h * 60 + m) * msPerMinute
  if target ≤ now then target + msPerDay else target

/-! ## Definitions supporting the round-trip and safety lemmas -/

/-- Characters that `JSON.stringify` leaves unescaped and that the string
scanner consumes verbatim. -/
def jsonSafeChar (c : Char) : Prop :=
  c ≠ '"' ∧ c ≠ '\\' ∧ c ≠ '\n' ∧ c ≠ '\t' ∧ c ≠ '\r'

instance (c : Char) : Decidable (jsonSafeChar c) := by
  unfold jsonSafeChar
  infer_instance

/-- Character list of the `"enabled":<b>}` tail of a canonical saved
payload. -/
def enabledTailChars (b : Bool) : List Char :=
  '"' :: 'e' :: 'n' :: 'a' :: 'b' :: 'l' :: 'e' :: 'd' :: '"' :: ':' ::
    ((if b then "true" else "false").data ++ ['\x7d'])

/-- Character list of the canonical saved payload for a configured time with
character list `l`. -/
def canonicalChars (l : List Char) (b : Bool) : List Char :=
  '\x7b' :: '"' :: 't' :: 'i' :: 'm' :: 'e' :: '"' :: ':' :: '"' ::
    (l ++ '"' :: ',' :: enabledTailChars b)

/-- A state that is armed but not ringing, used to exhibit that the dismiss
and snooze handlers are not no-ops outside the ringing state. -/
def armedIdleState : AppState :=
  { alarm := { time := "07:00", enabled := true, snoozed := false, snoozeUntil := none },
    isRinging := false, audioActive := false }

/-- A well-formed stored payload carrying the two expected fields in the
opposite order; `load()` accepts it unchanged. -/
def reorderedPayload : String := "\x7b\"enabled\":false,\"time\":\"07:00\"\x7d"

/-! ## Helper lemmas about the tick evaluation -/

theorem checkAlarm_of_ringing (ok : Bool) (s : AppState) (now d : Nat)
    (h : s.isRinging = true) : checkAlarm ok s now d = (s, false) := by
  unfold checkAlarm
  rw [h]
  simp

theorem countFires_of_ringing (ok : Bool) (s : AppState) (l : List (Nat × Nat))
    (h : s.isRinging = true) : countFires ok s l = 0 := by
  induction l generalizing s with
  | nil => rfl
  | cons td rest ih =>
    obtain ⟨now, d⟩ := td
    simp only [countFires, checkAlarm_of_ringing ok s now d h, h]
    simpa using ih s h

theorem countFires_le_one (ok : Bool) (s : AppState) (l : List (Nat × Nat)) :
    countFires ok s l ≤ 1 := by
  induction l generalizing s with
  | nil => simp [countFires]
  | cons td rest ih =>
    obtain ⟨now, d⟩ := td
    simp only [countFires]
    cases hf : (!s.isRinging && ((checkAlarm ok s now d).1).isRinging) with
    | false => simpa using ih ((checkAlarm ok s now d).1)
    | true =>
      have h2 : ((checkAlarm ok s now d).1).isRinging = true := by
        simp only [Bool.and_eq_true] at hf
        exact hf.2
      simp [countFires_of_ringing ok _ rest h2]

theorem checkAlarm_not_snoozed (s : AppState) (now d : Nat)
    (hsn : s.alarm.snoozed = false) :
    checkAlarm true s now d =
      if s.alarm.enabled && !s.isRinging && (hhmm now == s.alarm.time)
          && (secondsOf now == 0)
      then ({ s with isRinging := true, audioActive := true }, false)
      else (s, false) := by
  unfold checkAlarm startAlarmSound
  cases he : s.alarm.enabled <;> cases hr : s.isRinging <;>
    cases hm : (hhmm now == s.alarm.time) <;> cases hsec : (secondsOf now == 0) <;>
      cases ha : s.audioActive <;>
        simp [he, hr, hm, hsec, ha, hsn]

/-! ## C1 -/

/-- C1: with the alarm not snoozed, a tick of the alarm-check effect enters
the ringing state and starts the alert sound exactly when the alarm is
enabled, not already ringing, the zero-padded "HH:MM" rendering of the
current time equals the configured time string, and the seconds component is
exactly 0; every other such tick leaves the state unchanged.  Moreover along
any run of ticks with no user action in between, the machine enters the
ringing state at most once (and a time-match instant occurs at most once per
day at 1 Hz), so the alarm rings at most once per day via time match. -/
theorem tick_fires_exactly_on_time_match :
    (∀ (s : AppState) (now d : Nat), s.alarm.snoozed = false →
      checkAlarm true s now d =
        if s.alarm.enabled && !s.isRinging && (hhmm now == s.alarm.time)
            && (secondsOf now == 0)
        then ({ s with isRinging := true, audioActive := true }, false)
        else (s, false))
    ∧ (∀ (ok : Bool) (s : AppState) (ticks : List (Nat × Nat)),
        countFires ok s ticks ≤ 1) :=
  ⟨fun s now d hsn => checkAlarm_not_snoozed s now d hsn,
   fun ok s ticks => countFires_le_one ok s ticks⟩

/-- Witness for C1 at a concrete armed state and matching instant
(07:00:00.000 of day 0 is 25200000 ms). -/
theorem tick_fires_exactly_on_time_match_witness :
    ({ alarm := { time := "07:00", enabled := true, snoozed := false, snoozeUntil := none },
       isRinging := false, audioActive := false } : AppState).alarm.snoozed = false
    ∧ checkAlarm true
        { alarm := { time := "07:00", enabled := true, snoozed := false, snoozeUntil := none },
          isRinging := false, audioActive := false } 25200000 25200000 =
        (if ({ alarm := { time := "07:00", enabled := true, snoozed := false, snoozeUntil := none },
               isRinging := false, audioActive := false } : AppState).alarm.enabled
            && !({ alarm := { time := "07:00", enabled := true, snoozed := false, snoozeUntil := none },
                   isRinging := false, audioActive := false } : AppState).isRinging
            && (hhmm 25200000 == "07:00") && (secondsOf 25200000 == 0)
         then ({ alarm := { time := "07:00", enabled := true, snoozed := false, snoozeUntil := none },
                 isRinging := true, audioActive := true }, false)
         else ({ alarm := { time := "07:00", enabled := true, snoozed := false, snoozeUntil := none },
                 isRinging := false, audioActive := false }, false)) :=
  ⟨rfl, tick_fires_exactly_on_time_match.1
    { alarm := { time := "07:00", enabled := true, snoozed := false, snoozeUntil := none },
      isRinging := false, audioActive := false } 25200000 25200000 rfl⟩

/-! ## C2 -/

/-- C2: the snooze lifecycle.  Invoking snooze sets `snoozed`, sets
`snoozeUntil` to the snooze instant plus five minutes, clears the ringing
flag and stops the sound.  A subsequent tick with the alarm enabled, not
ringing, still snoozed and `Date.now() ≥ snoozeUntil` clears both snooze
fields, re-enters ringing and restarts the sound; every snoozed tick with
`Date.now() < snoozeUntil` changes nothing (in particular no time-match
check happens while snoozed). -/
theorem snooze_lifecycle :
    (∀ (s : AppState) (d : Nat),
      handleSnooze s d =
        { alarm := { s.alarm with snoozed := true, snoozeUntil := some (d + 5 * 60 * 1000) },
          isRinging := false, audioActive := false })
    ∧ (∀ (s : AppState) (now d u : Nat),
        s.alarm.enabled = true → s.isRinging = false →
        s.alarm.snoozed = true → s.alarm.snoozeUntil = some u → 0 < u → u ≤ d →
        checkAlarm true s now d =
          ({ alarm := { s.alarm with snoozed := false, snoozeUntil := none },
             isRinging := true, audioActive := true }, false))
    ∧ (∀ (ok : Bool) (s : AppState) (now d u : Nat),
        s.alarm.snoozed = true → s.alarm.snoozeUntil = some u → d < u →
        checkAlarm ok s now d = (s, false)) := by
  refine ⟨fun s d => rfl, ?_, ?_⟩
  · intro s now d u he hr hsn hu hupos hud
    unfold checkAlarm startAlarmSound
    rw [he, hr, hsn, hu]
    have ht : jsTruthyOpt (some u) = true := by
      simp [jsTruthyOpt]
      omega
    rw [ht]
    simp only [Bool.not_true, Bool.false_or, Bool.and_self, if_true, Bool.not_false]
    cases ha : s.audioActive <;> simp [hud, ha]
  · intro ok s now d u hsn hu hdu
    unfold checkAlarm
    rw [hsn, hu]
    cases he : s.alarm.enabled <;> cases hr : s.isRinging <;>
      (simp [he, hr, jsTruthyOpt]; try omega)

/-- Witness for C2: a snoozed armed state re-rings at a tick past
`snoozeUntil`, and stays unchanged at a tick before it. -/
theorem snooze_lifecycle_witness :
    checkAlarm true
        { alarm := { time := "07:00", enabled := true, snoozed := true, snoozeUntil := some 300000 },
          isRinging := false, audioActive := false } 0 300000 =
      ({ alarm := { time := "07:00", enabled := true, snoozed := false, snoozeUntil := none },
         isRinging := true, audioActive := true }, false)
    ∧ checkAlarm true
        { alarm := { time := "07:00", enabled := true, snoozed := true, snoozeUntil := some 300000 },
          isRinging := false, audioActive := false } 0 299999 =
      ({ alarm := { time := "07:00", enabled := true, snoozed := true, snoozeUntil := some 300000 },
         isRinging := false, audioActive := false }, false) :=
  ⟨snooze_lifecycle.2.1
      { alarm := { time := "07:00", enabled := true, snoozed := true, snoozeUntil := some 300000 },
        isRinging := false, audioActive := false } 0 300000 300000
      rfl rfl rfl rfl (by decide) (by decide),
   snooze_lifecycle.2.2 true
      { alarm := { time := "07:00", enabled := true, snoozed := true, snoozeUntil := some 300000 },
        isRinging := false, audioActive := false } 0 299999 300000
      rfl rfl (by decide)⟩

/-! ## C4 -/

/-- C4 counterexample: the claim says dismiss and snooze are no-ops on the
whole state unless currently ringing.  On an armed, non-ringing state the
snooze handler nevertheless sets the snooze fields, and the dismiss handler
disables the alarm: neither handler checks `isRinging` in the code. -/
theorem dismiss_snooze_not_noops_when_idle :
    armedIdleState.isRinging = false
    ∧ handleSnooze armedIdleState 0 ≠ armedIdleState
    ∧ handleDismiss armedIdleState ≠ armedIdleState :=
  ⟨rfl, by decide, by decide⟩

/-- C4 amended: the handlers are unconditional (the rendered UI exposes the
buttons only while ringing, but the functions themselves never check the
ringing flag).  Dismiss is idempotent; a repeated snooze re-targets
`snoozeUntil` to the later invocation's instant (so a second snooze at the
same instant is absorbed, but at a later instant it is not a no-op); both
always stop the sound and clear the ringing flag. -/
theorem dismiss_snooze_unconditional :
    (∀ s : AppState, handleDismiss (handleDismiss s) = handleDismiss s)
    ∧ (∀ (s : AppState) (d d2 : Nat), handleSnooze (handleSnooze s d) d2 = handleSnooze s d2)
    ∧ (∀ s : AppState,
        (handleDismiss s).audioActive = false ∧ (handleDismiss s).isRinging = false
        ∧ (handleDismiss s).alarm.enabled = false)
    ∧ (∀ (s : AppState) (d : Nat),
        (handleSnooze s d).audioActive = false ∧ (handleSnooze s d).isRinging = false
        ∧ (handleSnooze s d).alarm.snoozed = true
        ∧ (handleSnooze s d).alarm.snoozeUntil = some (d + SNOOZE_DURATION)) :=
  ⟨fun _ => rfl, fun _ _ _ => rfl, fun _ => ⟨rfl, rfl, rfl⟩, fun _ _ => ⟨rfl, rfl, rfl, rfl⟩⟩

/-! ## C5 -/

/-- C5: dismissing leaves the alarm disabled with both snooze fields cleared,
the ringing flag false and the sound stopped, whatever the prior state, and
dismissing twice yields the same state as dismissing once. -/
theorem dismiss_always_disables :
    (∀ s : AppState,
      handleDismiss s =
        { alarm := { time := s.alarm.time, enabled := false, snoozed := false,
                     snoozeUntil := none },
          isRinging := false, audioActive := false })
    ∧ (∀ s : AppState, handleDismiss (handleDismiss s) = handleDismiss s) :=
  ⟨fun _ => rfl, fun _ => rfl⟩

/-! ## Helper lemmas about records -/

theorem getField_append_of_mem (k : String) (v : Json) :
    ∀ fs gs : Fields, getField gs k = some v → getField (fs.append gs) k = some v
  | .nil, _, h => by simpa [Fields.append] using h
  | .cons _ _ rest, gs, h => by
    simp only [Fields.append, getField, getField_append_of_mem k v rest gs h]

/-! ## C3 -/

/-- C3: the code contradicts the specified fail-closed contract.  A missing
payload does yield the default configuration, but the initializer calls
`JSON.parse` with no `try`/`catch` and performs no shape validation, so the
spec's own scenario payload `"\x7bbad json"` makes `load()` throw a
`SyntaxError` instead of returning the `07:00`/disabled default. -/
theorem load_throws_on_malformed_payload :
    loadAlarm (some "\x7bbad json") = .error "SyntaxError"
    ∧ loadAlarm none = .ok defaultAlarmFields
    ∧ getField defaultAlarmFields "time" = some (.str "07:00")
    ∧ getField defaultAlarmFields "enabled" = some (.bool false) :=
  ⟨rfl, rfl, rfl, rfl⟩

/-! ## C6 -/

/-- C6: the record written by the save effect has exactly the keys `time`
and `enabled` (never `snoozed` or `snoozeUntil`), and every state the
initializer returns has `snoozed = false` and `snoozeUntil = null`, whatever
the stored payload was, because the literal on line 19 overrides both
fields after the spread. -/
theorem save_shape_and_load_resets_snooze :
    (∀ (t : String) (e : Bool), fieldKeys (savedObj t e) = ["time", "enabled"])
    ∧ (∀ (saved : Option String) (r : Fields), loadAlarm saved = .ok r →
        getField r "snoozed" = some (.bool false)
        ∧ getField r "snoozeUntil" = some .null) := by
  refine ⟨fun _ _ => rfl, ?_⟩
  intro saved r h
  match saved with
  | none =>
    have hr : r = defaultAlarmFields := by
      simpa [loadAlarm] using h.symm
    rw [hr]
    exact ⟨rfl, rfl⟩
  | some s =>
    by_cases hs : (s == "") = true
    · have hr : r = defaultAlarmFields := by
        simp [loadAlarm, hs] at h
        exact h.symm
      rw [hr]
      exact ⟨rfl, rfl⟩
    · match hj : jsonParse s with
      | none =>
        exfalso
        simp [loadAlarm, hs, hj] at h
      | some j =>
        have hr : r = (jsSpread j).append runtimeResetFields := by
          simp [loadAlarm, hs, hj] at h
          exact h.symm
        rw [hr]
        exact ⟨getField_append_of_mem _ _ _ _ rfl, getField_append_of_mem _ _ _ _ rfl⟩

/-- Witness for C6 at a concrete stored payload with a stale snooze-looking
field: the loaded record still has `snoozed = false` and
`snoozeUntil = null`. -/
theorem save_shape_and_load_resets_snooze_witness :
    loadAlarm (some "\x7b\"time\":\"08:30\",\"enabled\":true,\"snoozed\":true\x7d") =
      .ok (Fields.cons "time" (.str "08:30")
            (.cons "enabled" (.bool true)
              (.cons "snoozed" (.bool true)
                (.cons "snoozed" (.bool false) (.cons "snoozeUntil" .null .nil)))))
    ∧ (getField (Fields.cons "time" (.str "08:30")
            (.cons "enabled" (.bool true)
              (.cons "snoozed" (.bool true)
                (.cons "snoozed" (.bool false) (.cons "snoozeUntil" .null .nil))))) "snoozed"
          = some (.bool false)
        ∧ getField (Fields.cons "time" (.str "08:30")
            (.cons "enabled" (.bool true)
              (.cons "snoozed" (.bool true)
                (.cons "snoozed" (.bool false) (.cons "snoozeUntil" .null .nil))))) "snoozeUntil"
          = some .null) :=
  ⟨rfl, save_shape_and_load_resets_snooze.2
    (some "\x7b\"time\":\"08:30\",\"enabled\":true,\"snoozed\":true\x7d") _ rfl⟩

/-! ## C7 counterexample -/

/-- C7 counterexample: the claim asserts `save(load())` re-produces the read
bytes for every payload `load()` accepts, but the save effect always writes
the keys in the order `time`, `enabled`, so a payload with the keys in the
other order round-trips to different bytes. -/
theorem resave_differs_on_reordered_payload :
    resave (some reorderedPayload) = .ok "\x7b\"time\":\"07:00\",\"enabled\":false\x7d"
    ∧ ("\x7b\"time\":\"07:00\",\"enabled\":false\x7d" : String) ≠ reorderedPayload :=
  ⟨rfl, by decide⟩


/-! ## Helper lemmas for the persistence round trip -/

theorem escapeJsonChars_of_safe (l : List Char) (hl : ∀ c ∈ l, jsonSafeChar c) :
    escapeJsonChars l = l := by
  induction l with
  | nil => rfl
  | cons c cs ih =>
    have hc := hl c (by simp)
    obtain ⟨h1, h2, h3, h4, h5⟩ := hc
    have hcs : ∀ x ∈ cs, jsonSafeChar x := fun x hx => hl x (by simp [hx])
    simp [escapeJsonChars, h1, h2, h3, h4, h5, ih hcs]

theorem quoteJson_of_safe (t : String) (ht : ∀ c ∈ t.data, jsonSafeChar c) :
    quoteJson t = String.mk ('"' :: (t.data ++ ['"'])) := by
  simp [quoteJson, escapeJsonChars_of_safe t.data ht]

theorem parseStringBody_safe (l : List Char) (hl : ∀ c ∈ l, jsonSafeChar c) :
    ∀ (m : Nat) (acc rest : List Char),
      parseStringBody (l.length + (m + 1)) acc (l ++ '"' :: rest)
        = some (String.mk (acc.reverse ++ l), rest) := by
  induction l with
  | nil =>
    intro m acc rest
    simp [parseStringBody]
  | cons c l ih =>
    intro m acc rest
    have hc := hl c (by simp)
    have hrest : ∀ x ∈ l, jsonSafeChar x := fun x hx => hl x (by simp [hx])
    have h1 : (c == '"') = false := by simp [hc.1]
    have h2 : (c == '\\') = false := by simp [hc.2.1]
    have hfuel : (c :: l).length + (m + 1) = l.length + (m + 1) + 1 := by
      simp [List.length_cons]
      omega
    rw [hfuel]
    simp only [List.cons_append, parseStringBody, h1, h2, Bool.false_eq_true, if_false]
    have := ih hrest m (c :: acc) rest
    simp only [List.append_eq] at this ⊢
    rw [this]
    simp

theorem parseValue_canonical (l : List Char) (hl : ∀ c ∈ l, jsonSafeChar c)
    (m : Nat) (b : Bool) :
    parseValue (l.length + (m + 14)) (canonicalChars l b)
      = some (.obj (.cons "time" (.str (String.mk l)) (.cons "enabled" (.bool b) .nil)), []) := by
  cases b
  case false =>
    show
      (match
        (match
          (match parseStringBody (l.length + (m + 10 + 1)) [] (l ++ '"' :: ',' :: enabledTailChars false) with
           | some (s, rest2) => some (Json.str s, rest2)
           | none => none)
        with
        | some (v, rest4) =>
          (match skipWs rest4 with
           | ',' :: rest5 =>
             (match parseMembers (l.length + (m + 12)) rest5 with
              | some (fs, rest6) => some (Fields.cons (String.mk ['t','i','m','e']) v fs, rest6)
              | none => none)
           | '\x7d' :: rest5 => some (Fields.cons (String.mk ['t','i','m','e']) v Fields.nil, rest5)
           | _ => none)
        | none => none)
      with
      | some (fs, rest3) => some (Json.obj fs, rest3)
      | none => none)
      = some (.obj (.cons "time" (.str (String.mk l)) (.cons "enabled" (.bool false) .nil)), [])
    rw [parseStringBody_safe l hl (m + 10) [] (',' :: enabledTailChars false)]
    rfl
  case true =>
    show
      (match
        (match
          (match parseStringBody (l.length + (m + 10 + 1)) [] (l ++ '"' :: ',' :: enabledTailChars true) with
           | some (s, rest2) => some (Json.str s, rest2)
           | none => none)
        with
        | some (v, rest4) =>
          (match skipWs rest4 with
           | ',' :: rest5 =>
             (match parseMembers (l.length + (m + 12)) rest5 with
              | some (fs, rest6) => some (Fields.cons (String.mk ['t','i','m','e']) v fs, rest6)
              | none => none)
           | '\x7d' :: rest5 => some (Fields.cons (String.mk ['t','i','m','e']) v Fields.nil, rest5)
           | _ => none)
        | none => none)
      with
      | some (fs, rest3) => some (Json.obj fs, rest3)
      | none => none)
      = some (.obj (.cons "time" (.str (String.mk l)) (.cons "enabled" (.bool true) .nil)), [])
    rw [parseStringBody_safe l hl (m + 10) [] (',' :: enabledTailChars true)]
    rfl

theorem saveAlarm_data (t : String) (ht : ∀ c ∈ t.data, jsonSafeChar c) (b : Bool) :
    (saveAlarm t b).data = canonicalChars t.data b := by
  cases b <;>
    simp +decide [saveAlarm, savedObj, jsonStringify, stringifyMembers,
      quoteJson_of_safe t ht, escapeJsonChars_of_safe t.data ht, quoteJson, escapeJsonChars, canonicalChars, enabledTailChars,
      String.data_append]

theorem jsonParse_canonical (t : String) (ht : ∀ c ∈ t.data, jsonSafeChar c) (b : Bool) :
    jsonParse (saveAlarm t b)
      = some (.obj (.cons "time" (.str t) (.cons "enabled" (.bool b) .nil))) := by
  have hdata := saveAlarm_data t ht b
  have hlen : (saveAlarm t b).length = (canonicalChars t.data b).length := by
    rw [String.length, hdata]
  cases b
  case false =>
    have hfuel : (saveAlarm t false).length + 1 = t.data.length + (14 + 14) := by
      rw [hlen]
      simp [canonicalChars, enabledTailChars]
    unfold jsonParse
    rw [hfuel, hdata, parseValue_canonical t.data ht 14 false]
    simp [skipWs]
  case true =>
    have hfuel : (saveAlarm t true).length + 1 = t.data.length + (13 + 14) := by
      rw [hlen]
      simp [canonicalChars, enabledTailChars]
    unfold jsonParse
    rw [hfuel, hdata, parseValue_canonical t.data ht 13 true]
    simp [skipWs]


theorem intercalate_pair (x y : String) : String.intercalate "," [x, y] = x ++ "," ++ y := rfl

theorem getField_loadedRecord_time (t : String) (b : Bool) :
    getField (Fields.cons "time" (.str t) (.cons "enabled" (.bool b)
        (.cons "snoozed" (.bool false) (.cons "snoozeUntil" .null .nil)))) "time"
      = some (.str t) := by
  simp +decide [getField]

theorem getField_loadedRecord_enabled (t : String) (b : Bool) :
    getField (Fields.cons "time" (.str t) (.cons "enabled" (.bool b)
        (.cons "snoozed" (.bool false) (.cons "snoozeUntil" .null .nil)))) "enabled"
      = some (.bool b) := by
  simp +decide [getField]

/-- C7 amended: the round trip is a fixed point exactly on canonical
payloads.  For every configured time string made of unescaped characters
(every well-formed "HH:MM" in particular) and every enabled flag, loading
the payload written by save and saving the loaded configuration reproduces
the persisted bytes identically. -/
theorem canonical_payload_roundtrip_fixed_point (t : String)
    (ht : ∀ c ∈ t.data, jsonSafeChar c) (b : Bool) :
    resave (some (saveAlarm t b)) = .ok (saveAlarm t b) := by
  have hparse := jsonParse_canonical t ht b
  have hne : (saveAlarm t b == "") = false := by
    have hd := saveAlarm_data t ht b
    rw [beq_eq_false_iff_ne]
    intro h
    rw [h] at hd
    cases b <;> simp [canonicalChars] at hd
  simp only [resave, loadAlarm, hne, hparse, Bool.false_eq_true, if_false, Except.map]
  simp only [jsSpread, Fields.append, runtimeResetFields, saveLoadedRecord,
    getField_loadedRecord_time, getField_loadedRecord_enabled, saveLoadedMember,
    List.singleton_append, intercalate_pair]
  cases b <;>
    simp [saveAlarm, savedObj, jsonStringify, stringifyMembers, String.append_assoc]


/-- Witness for the amended C7 at the default configuration. -/
theorem canonical_payload_roundtrip_fixed_point_witness :
    (∀ c ∈ ("07:00" : String).data, jsonSafeChar c)
    ∧ resave (some (saveAlarm "07:00" false)) = .ok (saveAlarm "07:00" false) :=
  ⟨by decide, canonical_payload_roundtrip_fixed_point "07:00" (by decide) false⟩

/-! ## C9 -/

/-- C9 counterexample: on an armed state at its configured instant with the
audio subsystem unavailable, the tick evaluation terminates with an escaped
exception (second component `true`): the `AudioUnavailable` failure is not
caught anywhere in the effect, contradicting "recovered locally" — although
the ringing flag, set before the sound call, does end up `true`. -/
theorem audio_failure_escapes_tick :
    (checkAlarm false armedIdleState 25200000 25200000).2 = true
    ∧ ((checkAlarm false armedIdleState 25200000 25200000).1).isRinging = true :=
  ⟨by decide, by decide⟩

/-- C9 amended: when the audio subsystem is unavailable, the state updates
enqueued before the `startAlarmSound` call still apply, so the matching tick
(and likewise the snooze-expiry tick) still ends with the ringing flag true
and the snooze fields as the transition dictates; but the error is not
recovered locally — it escapes the tick evaluation (escaped-exception flag
`true`). -/
theorem ringing_survives_audio_failure :
    (∀ (s : AppState) (now d : Nat),
      s.alarm.snoozed = false → s.audioActive = false →
      s.alarm.enabled = true → s.isRinging = false →
      (hhmm now == s.alarm.time) = true → secondsOf now = 0 →
      checkAlarm false s now d = ({ s with isRinging := true }, true))
    ∧ (∀ (s : AppState) (now d u : Nat),
      s.audioActive = false → s.alarm.enabled = true → s.isRinging = false →
      s.alarm.snoozed = true → s.alarm.snoozeUntil = some u → 0 < u → u ≤ d →
      checkAlarm false s now d =
        ({ alarm := { s.alarm with snoozed := false, snoozeUntil := none },
           isRinging := true, audioActive := false }, true)) := by
  constructor
  · intro s now d hsn ha he hr hmatch hsec
    unfold checkAlarm startAlarmSound
    simp [he, hr, hsn, ha, hmatch, hsec]
  · intro s now d u ha he hr hsn hu hupos hud
    unfold checkAlarm startAlarmSound
    rw [he, hr, hsn, hu, ha]
    have ht : jsTruthyOpt (some u) = true := by
      simp [jsTruthyOpt]
      omega
    rw [ht]
    simp [hud]

/-- Witness for the amended C9 at the armed state and its matching
instant. -/
theorem ringing_survives_audio_failure_witness :
    checkAlarm false armedIdleState 25200000 25200000 =
      ({ armedIdleState with isRinging := true }, true) :=
  ringing_survives_audio_failure.1 armedIdleState 25200000 25200000
    rfl rfl rfl rfl (by decide) (by decide)

/-! ## Helper lemmas about the rolled alarm date -/

theorem nextAlarmDate_spec (h m now : Nat) (hh : h < 24) (hm : m < 60) :
    now < nextAlarmDate h m now
    ∧ nextAlarmDate h m now % msPerDay = (h * 60 + m) * msPerMinute
    ∧ ∀ t2 : Nat, now < t2 → t2 % msPerDay = (h * 60 + m) * msPerMinute →
        nextAlarmDate h m now ≤ t2 := by
  have hA : (h * 60 + m) * msPerMinute < msPerDay := by
    simp only [msPerMinute, msPerDay]
    omega
  have hnd : nextAlarmDate h m now =
      if now - now % msPerDay + (h * 60 + m) * msPerMinute ≤ now
      then now - now % msPerDay + (h * 60 + m) * msPerMinute + msPerDay
      else now - now % msPerDay + (h * 60 + m) * msPerMinute := rfl
  by_cases hc : now - now % msPerDay + (h * 60 + m) * msPerMinute ≤ now
  · rw [hnd, if_pos hc]
    simp only [msPerDay, msPerMinute] at hA hc ⊢
    refine ⟨by omega, by omega, ?_⟩
    intro t2 h1 h2
    omega
  · rw [hnd, if_neg hc]
    simp only [msPerDay, msPerMinute] at hA hc ⊢
    refine ⟨by omega, by omega, ?_⟩
    intro t2 h1 h2
    omega

/-! ## C8 -/

/-- C8: characterization of the time-remaining query, a pure function of
the enabled flag, configured time, snooze fields and current time (purity
holds by construction of the embedding: the query reads the state and
mutates nothing).  A disabled alarm yields no string; an actively snoozed
alarm (snooze deadline strictly in the future) yields a snooze string whose
minute count is the ceiling of the remaining snooze time; otherwise the
string is computed against the next future occurrence of the configured
time, rolling to the next calendar day when that time-of-day has already
passed — the rolled instant is the least strictly-future instant whose
time-of-day equals the configured time. -/
theorem time_remaining_query_characterization :
    (∀ (alarm : AlarmState) (now d : Nat), alarm.enabled = false →
      getTimeUntilAlarm alarm now d = none)
    ∧ (∀ (alarm : AlarmState) (now d u : Nat),
        alarm.enabled = true → alarm.snoozed = true → alarm.snoozeUntil = some u →
        d < u →
        ∃ mins : Nat,
          getTimeUntilAlarm alarm now d = some ("Snooze: " ++ toString mins ++ "m")
          ∧ (mins - 1) * msPerMinute < u - d ∧ u - d ≤ mins * msPerMinute)
    ∧ (∀ (alarm : AlarmState) (now d h m : Nat),
        alarm.enabled = true → alarm.snoozed = false →
        (splitChar ':' alarm.time.data).map (fun p => (toNatDigits? p).getD 0) = [h, m] →
        h < 24 → m < 60 →
        now < nextAlarmDate h m now
        ∧ nextAlarmDate h m now % msPerDay = (h * 60 + m) * msPerMinute
        ∧ (∀ t2 : Nat, now < t2 → t2 % msPerDay = (h * 60 + m) * msPerMinute →
            nextAlarmDate h m now ≤ t2)
        ∧ getTimeUntilAlarm alarm now d =
            (if (nextAlarmDate h m now - now) / msPerHour > 0
             then some ("in " ++ toString ((nextAlarmDate h m now - now) / msPerHour) ++ "h "
                  ++ toString ((nextAlarmDate h m now - now) % msPerHour / msPerMinute) ++ "m")
             else some ("in "
                  ++ toString ((nextAlarmDate h m now - now) % msPerHour / msPerMinute)
                  ++ "m"))) := by
  refine ⟨?_, ?_, ?_⟩
  · intro alarm now d he
    simp [getTimeUntilAlarm, he]
  · intro alarm now d u he hsn hu hdu
    refine ⟨(u - d + (msPerMinute - 1)) / msPerMinute, ?_, ?_, ?_⟩
    · unfold getTimeUntilAlarm
      have ht : jsTruthyOpt (some u) = true := by
        simp [jsTruthyOpt]
        omega
      simp [he, hsn, hu, ht, hdu]
    · simp only [msPerMinute]
      omega
    · simp only [msPerMinute]
      omega
  · intro alarm now d h m he hsn hparse hh hm
    obtain ⟨h1, h2, h3⟩ := nextAlarmDate_spec h m now hh hm
    refine ⟨h1, h2, h3, ?_⟩
    unfold getTimeUntilAlarm
    simp [he, hsn, hparse, nextAlarmDate]

/-- Witness for C8: the three branches at concrete inputs (disabled; snoozed
with five minutes left; armed at midnight with the alarm at 07:00). -/
theorem time_remaining_query_witness :
    getTimeUntilAlarm ⟨"07:00", false, false, none⟩ 0 0 = none
    ∧ (∃ mins : Nat,
        getTimeUntilAlarm ⟨"07:00", true, true, some 300000⟩ 0 0 =
          some ("Snooze: " ++ toString mins ++ "m")
        ∧ (mins - 1) * msPerMinute < 300000 - 0 ∧ 300000 - 0 ≤ mins * msPerMinute)
    ∧ (86399999 < nextAlarmDate 7 0 86399999
        ∧ nextAlarmDate 7 0 86399999 % msPerDay = (7 * 60 + 0) * msPerMinute
        ∧ (∀ t2 : Nat, 86399999 < t2 → t2 % msPerDay = (7 * 60 + 0) * msPerMinute →
            nextAlarmDate 7 0 86399999 ≤ t2)
        ∧ getTimeUntilAlarm ⟨"07:00", true, false, none⟩ 86399999 0 =
            (if (nextAlarmDate 7 0 86399999 - 86399999) / msPerHour > 0
             then some ("in " ++ toString ((nextAlarmDate 7 0 86399999 - 86399999) / msPerHour) ++ "h "
                  ++ toString ((nextAlarmDate 7 0 86399999 - 86399999) % msPerHour / msPerMinute) ++ "m")
             else some ("in "
                  ++ toString ((nextAlarmDate 7 0 86399999 - 86399999) % msPerHour / msPerMinute)
                  ++ "m"))) :=
  ⟨time_remaining_query_characterization.1 _ 0 0 rfl,
   time_remaining_query_characterization.2.1 _ 0 0 300000 rfl rfl rfl (by decide),
   time_remaining_query_characterization.2.2 _ 86399999 0 7 0 rfl rfl (by decide)
     (by decide) (by decide)⟩

/-! ## C10 -/

/-- C10: the query returns the snooze string only while the snooze deadline
is strictly in the future.  A state still marked snoozed whose deadline has
passed (the re-ring tick has not yet run) is answered exactly like a
non-snoozed alarm — the query falls through to the time-until-next-occurrence
string — and when that remaining time is under one hour the result omits the
hours part entirely. -/
theorem stale_snooze_falls_through :
    (∀ (alarm : AlarmState) (now d u : Nat),
      alarm.snoozed = true → alarm.snoozeUntil = some u → u ≤ d →
      getTimeUntilAlarm alarm now d =
        getTimeUntilAlarm { alarm with snoozed := false, snoozeUntil := none } now d)
    ∧ (∀ (alarm : AlarmState) (now d h m : Nat),
      alarm.enabled = true → alarm.snoozed = false →
      (splitChar ':' alarm.time.data).map (fun p => (toNatDigits? p).getD 0) = [h, m] →
      nextAlarmDate h m now - now < msPerHour →
      getTimeUntilAlarm alarm now d =
        some ("in " ++ toString ((nextAlarmDate h m now - now) % msPerHour / msPerMinute)
          ++ "m")) := by
  constructor
  · intro alarm now d u hsn hu hud
    unfold getTimeUntilAlarm
    by_cases hu0 : u = 0
    · subst hu0
      simp [hsn, hu, jsTruthyOpt]
    · have hnl : ¬ (d < u) := by omega
      simp [hsn, hu, jsTruthyOpt, hu0, hnl]
  · intro alarm now d h m he hsn hparse hlt
    have hz : (nextAlarmDate h m now - now) / msPerHour = 0 := Nat.div_eq_of_lt hlt
    unfold getTimeUntilAlarm
    simp [he, hsn, hparse, nextAlarmDate] at hz ⊢
    simp [hz]

/-- Witness for C10: a stale snooze (deadline one minute in the past) is
answered like a non-snoozed alarm, and an alarm due in thirty minutes is
rendered with minutes only. -/
theorem stale_snooze_falls_through_witness :
    getTimeUntilAlarm ⟨"07:00", true, true, some 60000⟩ 0 120000 =
      getTimeUntilAlarm ⟨"07:00", true, false, none⟩ 0 120000
    ∧ getTimeUntilAlarm ⟨"07:00", true, false, none⟩ 23400000 0 =
      some ("in " ++ toString ((nextAlarmDate 7 0 23400000 - 23400000) % msPerHour / msPerMinute)
        ++ "m") :=
  ⟨stale_snooze_falls_through.1 _ 0 120000 60000 rfl rfl (by decide),
   stale_snooze_falls_through.2 _ 23400000 0 7 0 rfl rfl (by decide) (by decide)⟩
